import Mathlib

/-!
# Verification of the Tic-Tac-Toe game model

A shallow embedding of `src/levels/L2/src/models/game.ts` (class `GameModel`)
and the data model of `src/levels/L2/src/types.ts`, together with proofs about
the game lifecycle, move validation, win/draw detection and the in-memory
game registry.

Conventions of the embedding:
* JavaScript `Date` values are modelled as abstract `Nat` timestamps supplied
  by the caller (`now` parameters).
* `uuidv4()` results are modelled as explicit `fresh`/`moveId` string
  parameters supplied by the caller.
* `throw new Error(msg)` is modelled by returning `Except.error msg`; every
  state-mutating operation returns the resulting registry map alongside its
  result, so an operation that throws before mutating returns the map it was
  given.
* The `Map<string, Game>` registry is modelled as an association list
  (`List (String × Game)`); `Map.get` is first-match lookup, `Map.set`
  replaces an existing binding in place or appends a new one.
-/

namespace TicTacToe

/-- Game lifecycle status, from `types.ts` (`GameStatus`). -/
inductive GameStatus where
  | waiting
  | active
  | completed
  | draw
deriving DecidableEq, Repr

/-- A board cell holds `none` (empty) or the occupying player's id.
`game.ts` stores the `playerId` string into cells (`game.board[row][col] = playerId`). -/
abbrev Cell := Option String

/-- The 3×3 board, a list of rows of cells (`GameBoard` in `types.ts`). -/
abbrev Board := List (List Cell)

/-- Read `board[r][c]`; out-of-range reads yield `none` (bounds are always
checked by callers before access, as in the source). -/
def cellAt (b : Board) (r c : Nat) : Cell :=
  (b.getD r []).getD c none

/-- Write `board[r][c] := v` (in the source, in-place assignment). -/
def setCell (b : Board) (r c : Nat) (v : Cell) : Board :=
  b.set r ((b.getD r []).set c v)

/-- A move record, from `types.ts` (`Move`): fields `id`, `gameId`,
`playerId`, `row`, `col`, `timestamp` — and no others. -/
structure Move where
  id : String
  gameId : String
  playerId : String
  row : Int
  col : Int
  timestamp : Nat
deriving DecidableEq, Repr

/-- A player record; the game model only ever reads `id` (the remaining
profile fields of `types.ts` are carried opaquely). -/
structure Player where
  id : String
  name : String
  email : String
deriving DecidableEq, Repr

/-- The game aggregate, from `types.ts` (`Game`) plus the `name` field that
`game.ts` populates. -/
structure Game where
  id : String
  name : String
  status : GameStatus
  board : Board
  players : List Player
  currentPlayerId : Option String
  winnerId : Option String
  createdAt : Nat
  updatedAt : Nat
  moves : List Move
deriving DecidableEq, Repr

/-- Which line produced a win (`WinCondition` in `types.ts`). -/
inductive WinCondition where
  | row
  | column
  | diagonal
deriving DecidableEq, Repr

/-- The result shape actually returned by `GameModel.checkWinCondition`:
`{ won: true, condition, position }` or `{ won: false }`. -/
structure WinResult where
  won : Bool
  condition : Option WinCondition := none
  position : Option Nat := none
deriving DecidableEq, Repr

instance {ε α : Type} [DecidableEq ε] [DecidableEq α] : DecidableEq (Except ε α) :=
  fun a b =>
    match a, b with
    | .error x, .error y =>
      if h : x = y then .isTrue (by rw [h]) else .isFalse (by simpa using h)
    | .ok x, .ok y =>
      if h : x = y then .isTrue (by rw [h]) else .isFalse (by simpa using h)
    | .error _, .ok _ => .isFalse (by simp)
    | .ok _, .error _ => .isFalse (by simp)

/-- The in-memory registry `private games: Map<string, Game>`. -/
abbrev GamesMap := List (String × Game)

/-- `Map.get(gameId) || null` — first-match association lookup. -/
def getGameById (m : GamesMap) (gameId : String) : Option Game :=
  (m.find? (fun kv => kv.1 == gameId)).map (fun kv => kv.2)

/-- `Map.set(gameId, game)`: replace the existing binding in place, or append. -/
def mapSet (m : GamesMap) (k : String) (g : Game) : GamesMap :=
  if m.any (fun kv => kv.1 == k) then
    m.map (fun kv => if kv.1 == k then (k, g) else kv)
  else
    m ++ [(k, g)]

/-- `Map.delete(gameId)`. -/
def mapDelete (m : GamesMap) (k : String) : GamesMap :=
  m.filter (fun kv => kv.1 != k)

/-- `createEmptyBoard()`: the 3×3 all-`null` board. -/
def createEmptyBoard : Board :=
  [[none, none, none], [none, none, none], [none, none, none]]

/-- `GameModel.createGame(name?)`. `name || ...` is JavaScript truthiness:
an absent or empty name falls back to the generated placeholder. -/
def createGame (fresh : String) (now : Nat) (name : Option String) (m : GamesMap) :
    Game × GamesMap :=
  let gname : String :=
    match name with
    | some s => if s == "" then "Game-" ++ toString now else s
    | none => "Game-" ++ toString now
  let game : Game :=
    { id := fresh
      name := gname
      status := .waiting
      board := createEmptyBoard
      players := []
      currentPlayerId := none
      winnerId := none
      createdAt := now
      updatedAt := now
      moves := [] }
  (game, mapSet m game.id game)

/-- The successful tail of `GameModel.joinGame`: `game.players.push(player)`;
if the count reaches 2, set status `active` and `currentPlayerId` to
`game.players[0].id`; stamp `updatedAt`. -/
def joinedGame (now : Nat) (game : Game) (player : Player) : Game :=
  let players := game.players ++ [player]
  if players.length = 2 then
    { game with
        players := players
        status := .active
        currentPlayerId := (players.head?).map Player.id
        updatedAt := now }
  else
    { game with players := players, updatedAt := now }

/-- `GameModel.joinGame(gameId, player)`. Checks, in source order: game
exists, status is `waiting`, fewer than 2 players; then appends the player,
and on reaching 2 players activates the game with `players[0]` to move. -/
def joinGame (now : Nat) (m : GamesMap) (gameId : String) (player : Player) :
    Except String Game × GamesMap :=
  match getGameById m gameId with
  | none => (.error "Game not found", m)
  | some game =>
    if game.status ≠ GameStatus.waiting then
      (.error "Game is not accepting new players", m)
    else if 2 ≤ game.players.length then
      (.error "Game is full", m)
    else
      let game' := joinedGame now game player
      (.ok game', mapSet m gameId game')

/-- `GameModel.checkWinCondition(board, playerId)`: scan the 3 rows, then the
3 columns, then the two diagonals, returning at the first complete line
(the source's `for` loops with early `return`, unrolled at the literal
bound 3). -/
def checkWinCondition (board : Board) (playerId : String) : WinResult :=
  if cellAt board 0 0 = some playerId ∧ cellAt board 0 1 = some playerId ∧
      cellAt board 0 2 = some playerId then
    { won := true, condition := some .row, position := some 0 }
  else if cellAt board 1 0 = some playerId ∧ cellAt board 1 1 = some playerId ∧
      cellAt board 1 2 = some playerId then
    { won := true, condition := some .row, position := some 1 }
  else if cellAt board 2 0 = some playerId ∧ cellAt board 2 1 = some playerId ∧
      cellAt board 2 2 = some playerId then
    { won := true, condition := some .row, position := some 2 }
  else if cellAt board 0 0 = some playerId ∧ cellAt board 1 0 = some playerId ∧
      cellAt board 2 0 = some playerId then
    { won := true, condition := some .column, position := some 0 }
  else if cellAt board 0 1 = some playerId ∧ cellAt board 1 1 = some playerId ∧
      cellAt board 2 1 = some playerId then
    { won := true, condition := some .column, position := some 1 }
  else if cellAt board 0 2 = some playerId ∧ cellAt board 1 2 = some playerId ∧
      cellAt board 2 2 = some playerId then
    { won := true, condition := some .column, position := some 2 }
  else if cellAt board 0 0 = some playerId ∧ cellAt board 1 1 = some playerId ∧
      cellAt board 2 2 = some playerId then
    { won := true, condition := some .diagonal, position := some 0 }
  else if cellAt board 0 2 = some playerId ∧ cellAt board 1 1 = some playerId ∧
      cellAt board 2 0 = some playerId then
    { won := true, condition := some .diagonal, position := some 1 }
  else
    { won := false }

/-- `GameModel.isDraw(board)`: the nested loops return `false` at the first
empty cell, i.e. a draw iff all 9 cells are occupied. -/
def isDraw (board : Board) : Bool :=
  (List.range 3).all fun r => (List.range 3).all fun c => cellAt board r c ≠ none

/-- The mutation tail of `GameModel.makeMove`, entered once every validation
has passed: mark the cell, stamp `updatedAt`, append the move record, and
resolve the outcome — win (`completed`, `winnerId` set), else draw
(`draw`), else flip `currentPlayerId` to
`players[(currentIndex + 1) % players.length]`. -/
def applyMoveToGame (now : Nat) (moveId : String) (game : Game)
    (gameId playerId : String) (row col : Int) : Game × Move :=
  let board := setCell game.board row.toNat col.toNat (some playerId)
  let move : Move :=
    { id := moveId, gameId := gameId, playerId := playerId,
      row := row, col := col, timestamp := now }
  let moves := game.moves ++ [move]
  let game' :=
    if (checkWinCondition board playerId).won then
      { game with
          board := board, updatedAt := now, moves := moves,
          status := .completed, winnerId := some playerId }
    else if isDraw board then
      { game with
          board := board, updatedAt := now, moves := moves,
          status := .draw }
    else
      let currentPlayerIndex := game.players.findIdx (fun p => p.id == playerId)
      let nextPlayerIndex := (currentPlayerIndex + 1) % game.players.length
      { game with
          board := board, updatedAt := now, moves := moves,
          currentPlayerId := (game.players.get? nextPlayerIndex).map Player.id }
  (game', move)

/-- `GameModel.makeMove(gameId, playerId, row, col)`. Validation in source
order (existence, active status, turn ownership, bounds, cell emptiness,
player membership), then the mutation: mark the cell, append the move
record, and resolve win / draw / turn flip. -/
def makeMove (now : Nat) (moveId : String) (m : GamesMap)
    (gameId playerId : String) (row col : Int) :
    Except String (Game × Move) × GamesMap :=
  match getGameById m gameId with
  | none => (.error "Game not found", m)
  | some game =>
    if game.status ≠ GameStatus.active then
      (.error "Game is not active", m)
    else if game.currentPlayerId ≠ some playerId then
      (.error "Not your turn", m)
    else if row < 0 ∨ 2 < row ∨ col < 0 ∨ 2 < col then
      (.error "Move coordinates must be between 0 and 2", m)
    else if cellAt game.board row.toNat col.toNat ≠ none then
      (.error "Cell is already occupied", m)
    else
      match game.players.find? (fun p => p.id == playerId) with
      | none => (.error "Player not found in game", m)
      | some _ =>
        let gm := applyMoveToGame now moveId game gameId playerId row col
        (.ok gm, mapSet m gameId gm.1)

/-- `GameModel.deleteGame(gameId)`: only checks existence before removing. -/
def deleteGame (m : GamesMap) (gameId : String) : Except String Unit × GamesMap :=
  match getGameById m gameId with
  | none => (.error "Game not found", m)
  | some _ => (.ok (), mapDelete m gameId)

/-- `GameService.deleteGame(gameId)` (gameService.ts, the service source
embedded in `src/base/README.md`): read the game via the model, throw
`Game not found` if absent, throw `Cannot delete an active game` if its
status is `active` ("Only allow deletion of completed or waiting games"),
otherwise delegate to `GameModel.deleteGame`. The `console.log` calls are
output-only and are omitted. -/
def serviceDeleteGame (m : GamesMap) (gameId : String) : Except String Unit × GamesMap :=
  match getGameById m gameId with
  | none => (.error "Game not found", m)
  | some game =>
    if game.status = GameStatus.active then
      (.error "Cannot delete an active game", m)
    else
      deleteGame m gameId

/-! ## Registry lookup lemmas -/

lemma find?_set_same (k : String) (g : Game) (m : GamesMap)
    (h : m.any (fun kv => kv.1 == k) = true) :
    (m.map (fun kv => if kv.1 == k then (k, g) else kv)).find?
        (fun kv => kv.1 == k) = some (k, g) := by
  induction m with
  | nil => simp at h
  | cons kv t ih =>
    simp only [List.map_cons]
    by_cases hk : kv.1 = k
    · rw [if_pos (by simp [hk])]
      exact List.find?_cons_of_pos _ (by simp)
    · have ht : t.any (fun kv => kv.1 == k) = true := by
        rcases List.any_eq_true.mp h with ⟨x, hx, hpx⟩
        rcases List.mem_cons.mp hx with rfl | hxt
        · exact absurd (by simpa using hpx) hk
        · exact List.any_eq_true.mpr ⟨x, hxt, hpx⟩
      rw [if_neg (by simp [hk])]
      rw [List.find?_cons_of_neg _ (by simp [hk])]
      exact ih ht

lemma find?_set_other (k k' : String) (g : Game) (hkk : k ≠ k') (m : GamesMap) :
    (m.map (fun kv => if kv.1 == k then (k, g) else kv)).find?
        (fun kv => kv.1 == k') = m.find? (fun kv => kv.1 == k') := by
  induction m with
  | nil => rfl
  | cons kv t ih =>
    simp only [List.map_cons]
    by_cases hk : kv.1 = k
    · rw [if_pos (by simp [hk])]
      rw [List.find?_cons_of_neg _ (by simp [hkk])]
      rw [List.find?_cons_of_neg _ (by simp [hk, hkk])]
      exact ih
    · rw [if_neg (by simp [hk])]
      by_cases hk' : kv.1 = k'
      · rw [List.find?_cons_of_pos _ (by simp [hk']),
          List.find?_cons_of_pos _ (by simp [hk'])]
      · rw [List.find?_cons_of_neg _ (by simp [hk']),
          List.find?_cons_of_neg _ (by simp [hk'])]
        exact ih

/-- Reading back the registry after `Map.set`: the written key returns the
written game, every other key is untouched. -/
lemma getGameById_mapSet (m : GamesMap) (k k' : String) (g : Game) :
    getGameById (mapSet m k g) k' = if k = k' then some g else getGameById m k' := by
  unfold getGameById mapSet
  by_cases hany : m.any (fun kv => kv.1 == k) = true
  · rw [if_pos hany]
    by_cases hkk : k = k'
    · subst hkk
      rw [find?_set_same k g m hany]
      simp
    · rw [find?_set_other k k' g hkk m, if_neg hkk]
  · rw [if_neg hany]
    rw [List.find?_append]
    by_cases hkk : k = k'
    · subst hkk
      have hnone : m.find? (fun kv => kv.1 == k) = none := by
        rw [List.find?_eq_none]
        intro x hx hpx
        exact hany (List.any_eq_true.mpr ⟨x, hx, hpx⟩)
      simp [hnone, List.find?_cons]
    · have h2 : (([(k, g)] : GamesMap)).find? (fun kv => kv.1 == k') = none := by
        simp [List.find?_cons, hkk]
      simp [h2, hkk]

/-- A deleted key no longer resolves. -/
lemma getGameById_mapDelete_self (m : GamesMap) (k : String) :
    getGameById (mapDelete m k) k = none := by
  unfold getGameById mapDelete
  have : (m.filter (fun kv => kv.1 != k)).find? (fun kv => kv.1 == k) = none := by
    rw [List.find?_eq_none]
    intro x hx hpx
    have hq := List.of_mem_filter hx
    simp only [bne_iff_ne, ne_eq] at hq
    exact hq (by simpa using hpx)
  simp [this]

/-! ## Operation characterization lemmas -/

/-- A failed `joinGame` leaves the registry untouched. -/
lemma joinGame_error_map (now : Nat) (m : GamesMap) (gameId : String) (p : Player)
    (e : String) (h : (joinGame now m gameId p).1 = .error e) :
    (joinGame now m gameId p).2 = m := by
  unfold joinGame at h ⊢
  cases hg : getGameById m gameId with
  | none => rfl
  | some game =>
    simp only [hg] at h ⊢
    split_ifs at h ⊢ with h1 h2 <;> rfl

/-- A successful `joinGame` came from a `waiting`, not-yet-full game, returns
`joinedGame` and stores it back under the same key. -/
lemma joinGame_ok (now : Nat) (m : GamesMap) (gameId : String) (p : Player)
    (g' : Game) (h : (joinGame now m gameId p).1 = .ok g') :
    ∃ game, getGameById m gameId = some game ∧
      game.status = GameStatus.waiting ∧
      game.players.length < 2 ∧
      g' = joinedGame now game p ∧
      (joinGame now m gameId p).2 = mapSet m gameId g' := by
  unfold joinGame at h ⊢
  cases hg : getGameById m gameId with
  | none => simp [hg] at h
  | some game =>
    simp only [hg] at h ⊢
    split_ifs at h ⊢ with h1 h2
    have h' : joinedGame now game p = g' := Except.ok.inj h
    subst h'
    exact ⟨game, rfl, not_not.mp h1, by omega, rfl, rfl⟩

/-- A failed `makeMove` leaves the registry untouched. -/
lemma makeMove_error_map (now : Nat) (moveId : String) (m : GamesMap)
    (gameId playerId : String) (row col : Int) (e : String)
    (h : (makeMove now moveId m gameId playerId row col).1 = .error e) :
    (makeMove now moveId m gameId playerId row col).2 = m := by
  unfold makeMove at h ⊢
  cases hg : getGameById m gameId with
  | none => rfl
  | some game =>
    simp only [hg] at h ⊢
    split_ifs at h ⊢ with h1 h2 h3 h4
    · rfl
    · rfl
    · rfl
    · rfl
    · cases hf : game.players.find? (fun p => p.id == playerId) with
      | none => simp [hf]
      | some q => simp [hf] at h

/-- A successful `makeMove` came from an `active` game whose turn belonged to
the caller, targeted an empty in-bounds cell, applied `applyMoveToGame`, and
stored the updated game back under the same key. -/
lemma makeMove_ok (now : Nat) (moveId : String) (m : GamesMap)
    (gameId playerId : String) (row col : Int) (g' : Game) (mv : Move)
    (h : (makeMove now moveId m gameId playerId row col).1 = .ok (g', mv)) :
    ∃ game, getGameById m gameId = some game ∧
      game.status = GameStatus.active ∧
      game.currentPlayerId = some playerId ∧
      ¬(row < 0 ∨ 2 < row ∨ col < 0 ∨ 2 < col) ∧
      cellAt game.board row.toNat col.toNat = none ∧
      (∃ q, game.players.find? (fun p => p.id == playerId) = some q) ∧
      (g', mv) = applyMoveToGame now moveId game gameId playerId row col ∧
      (makeMove now moveId m gameId playerId row col).2 = mapSet m gameId g' := by
  unfold makeMove at h ⊢
  cases hg : getGameById m gameId with
  | none => simp [hg] at h
  | some game =>
    simp only [hg] at h ⊢
    split_ifs at h ⊢ with h1 h2 h3 h4
    cases hf : game.players.find? (fun p => p.id == playerId) with
    | none => simp [hf] at h
    | some q =>
      simp only [hf] at h ⊢
      have hpair : applyMoveToGame now moveId game gameId playerId row col = (g', mv) :=
        Except.ok.inj h
      refine ⟨game, rfl, not_not.mp h1, not_not.mp h2, h3, not_not.mp h4,
        ⟨q, hf⟩, hpair.symm, ?_⟩
      rw [hpair]

/-! ## Lifecycle invariant and reachable registry states -/

/-- The lifecycle relation the code actually maintains between
`currentPlayerId`, `status` and `players`: `currentPlayerId` is populated
exactly once the game has left `waiting` (which happens exactly when the
second player joins), and a game that has left `waiting` holds exactly two
players. -/
def lifecycleInv (g : Game) : Prop :=
  (g.currentPlayerId ≠ none ↔ g.status ≠ GameStatus.waiting) ∧
  (g.status ≠ GameStatus.waiting → g.players.length = 2)

/-- Registry states reachable from the empty registry by any sequence of
`createGame`, `joinGame` and `makeMove` calls (failed calls leave the
registry unchanged, so they are included for free). -/
inductive Reachable : GamesMap → Prop where
  | init : Reachable []
  | create (fresh : String) (now : Nat) (name : Option String) (m : GamesMap) :
      Reachable m → Reachable (createGame fresh now name m).2
  | join (now : Nat) (gameId : String) (p : Player) (m : GamesMap) :
      Reachable m → Reachable (joinGame now m gameId p).2
  | move (now : Nat) (moveId : String) (gameId playerId : String)
      (row col : Int) (m : GamesMap) :
      Reachable m → Reachable (makeMove now moveId m gameId playerId row col).2

/-- Every game stored in the registry satisfies the lifecycle invariant. -/
def invAll (m : GamesMap) : Prop :=
  ∀ k g, getGameById m k = some g → lifecycleInv g

lemma lifecycleInv_joinedGame (now : Nat) (game : Game) (p : Player)
    (hw : game.status = GameStatus.waiting) (hinv : lifecycleInv game) :
    lifecycleInv (joinedGame now game p) := by
  unfold joinedGame
  by_cases h2 : (game.players ++ [p]).length = 2
  · rw [if_pos h2]
    refine ⟨⟨fun _ => by simp, fun _ => ?_⟩, fun _ => by simpa using h2⟩
    cases game.players <;> simp
  · rw [if_neg h2]
    have hcur : game.currentPlayerId = none := by
      by_contra hne
      exact (hinv.1.mp hne) hw
    exact ⟨by simp [hcur, hw], fun hne => absurd hw (by simpa using hne)⟩

lemma lifecycleInv_applyMove (now : Nat) (moveId : String) (game : Game)
    (gameId playerId : String) (row col : Int)
    (ha : game.status = GameStatus.active)
    (hcur : game.currentPlayerId = some playerId)
    (hlen : game.players.length = 2) :
    lifecycleInv (applyMoveToGame now moveId game gameId playerId row col).1 := by
  unfold applyMoveToGame
  simp only
  split_ifs with hw hd
  · exact ⟨by simp [hcur], fun _ => hlen⟩
  · exact ⟨by simp [hcur], fun _ => hlen⟩
  · have hlt : (game.players.findIdx (fun p => p.id == playerId) + 1) %
        game.players.length < game.players.length := by
      rw [hlen]
      exact Nat.mod_lt _ (by norm_num)
    have hne : game.players.get? ((game.players.findIdx (fun p => p.id == playerId) + 1) %
        game.players.length) ≠ none := by
      rw [Ne, List.get?_eq_none]
      omega
    refine ⟨⟨fun _ => by simp [ha], fun _ => ?_⟩, fun _ => hlen⟩
    simpa [Option.map_eq_none'] using hne

lemma invAll_create (fresh : String) (now : Nat) (name : Option String)
    (m : GamesMap) (hinv : invAll m) : invAll (createGame fresh now name m).2 := by
  intro k g hget
  simp only [createGame] at hget
  rw [getGameById_mapSet] at hget
  split_ifs at hget with hk
  · have hg := Option.some.inj hget
    subst hg
    exact ⟨by simp, fun hne => absurd rfl hne⟩
  · exact hinv k g hget

lemma invAll_join (now : Nat) (gameId : String) (p : Player) (m : GamesMap)
    (hinv : invAll m) : invAll (joinGame now m gameId p).2 := by
  intro k g hget
  cases hj : (joinGame now m gameId p).1 with
  | error e =>
    rw [joinGame_error_map now m gameId p e hj] at hget
    exact hinv k g hget
  | ok g' =>
    obtain ⟨game, hgame, hw, hlen, hg', hmap⟩ := joinGame_ok now m gameId p g' hj
    rw [hmap, getGameById_mapSet] at hget
    split_ifs at hget with hk
    · have hgg := Option.some.inj hget
      subst hgg
      rw [hg']
      exact lifecycleInv_joinedGame now game p hw (hinv gameId game hgame)
    · exact hinv k g hget

lemma invAll_move (now : Nat) (moveId : String) (gameId playerId : String)
    (row col : Int) (m : GamesMap) (hinv : invAll m) :
    invAll (makeMove now moveId m gameId playerId row col).2 := by
  intro k g hget
  cases hj : (makeMove now moveId m gameId playerId row col).1 with
  | error e =>
    rw [makeMove_error_map now moveId m gameId playerId row col e hj] at hget
    exact hinv k g hget
  | ok gm =>
    obtain ⟨g', mv⟩ := gm
    obtain ⟨game, hgame, ha, hcur, _, _, _, hpair, hmap⟩ :=
      makeMove_ok now moveId m gameId playerId row col g' mv hj
    rw [hmap, getGameById_mapSet] at hget
    split_ifs at hget with hk
    · have hgg := Option.some.inj hget
      subst hgg
      have hlen : game.players.length = 2 :=
        (hinv gameId game hgame).2 (by simp [ha])
      have hg' : g' = (applyMoveToGame now moveId game gameId playerId row col).1 := by
        rw [← hpair]
      rw [hg']
      exact lifecycleInv_applyMove now moveId game gameId playerId row col ha hcur hlen
    · exact hinv k g hget

/-- Every reachable registry state satisfies the lifecycle invariant. -/
lemma reachable_invAll (m : GamesMap) (hm : Reachable m) : invAll m := by
  induction hm with
  | init =>
    intro k g hget
    simp [getGameById] at hget
  | create fresh now name m _ ih => exact invAll_create fresh now name m ih
  | join now gameId p m _ ih => exact invAll_join now gameId p m ih
  | move now moveId gameId playerId row col m _ ih =>
    exact invAll_move now moveId gameId playerId row col m ih

/-! ## Concrete fixtures

A sample run: create game `"g"` named `"G1"`, players `A` and `B` join,
then A plays (0,0), B (1,0), A (0,1), B (1,1), and A completes the top row
with (0,2). -/

def pA : Player := ⟨"A", "Alice", "alice@example.com"⟩

def pB : Player := ⟨"B", "Bob", "bob@example.com"⟩

def reg0 : GamesMap := (createGame "g" 0 (some "G1") []).2

def reg1 : GamesMap := (joinGame 1 reg0 "g" pA).2

def reg2 : GamesMap := (joinGame 2 reg1 "g" pB).2

def reg3 : GamesMap := (makeMove 3 "m1" reg2 "g" "A" 0 0).2

def reg4 : GamesMap := (makeMove 4 "m2" reg3 "g" "B" 1 0).2

def reg5 : GamesMap := (makeMove 5 "m3" reg4 "g" "A" 0 1).2

def reg6 : GamesMap := (makeMove 6 "m4" reg5 "g" "B" 1 1).2

def reg7 : GamesMap := (makeMove 7 "m5" reg6 "g" "A" 0 2).2

/-- The game stored in `reg1`: one player, still `waiting`, no current player. -/
def gameReg1 : Game :=
  { id := "g", name := "G1", status := .waiting, board := createEmptyBoard,
    players := [pA], currentPlayerId := none, winnerId := none,
    createdAt := 0, updatedAt := 1, moves := [] }

/-- The game stored in `reg2`: both players joined, `active`, A to move. -/
def gameReg2 : Game :=
  { id := "g", name := "G1", status := .active, board := createEmptyBoard,
    players := [pA, pB], currentPlayerId := some "A", winnerId := none,
    createdAt := 0, updatedAt := 2, moves := [] }

lemma reachable_reg2 : Reachable reg2 :=
  Reachable.join 2 "g" pB reg1
    (Reachable.join 1 "g" pA reg0
      (Reachable.create "g" 0 (some "G1") [] Reachable.init))

lemma reachable_reg7 : Reachable reg7 :=
  Reachable.move 7 "m5" "g" "A" 0 2 reg6
    (Reachable.move 6 "m4" "g" "B" 1 1 reg5
      (Reachable.move 5 "m3" "g" "A" 0 1 reg4
        (Reachable.move 4 "m2" "g" "B" 1 0 reg3
          (Reachable.move 3 "m1" "g" "A" 0 0 reg2 reachable_reg2))))

/-! ## Claims -/

/-- C10: `getGameById` is total over the `Option` type — an id under which
no game is stored resolves to `null` (`none`), a normal absent result, and
a non-`none` answer occurs exactly when some stored binding carries the id;
unlike `joinGame`/`makeMove`/`deleteGame`, no error is ever raised. -/
theorem getGameById_absent_is_none (m : GamesMap) (gameId : String) :
    getGameById m gameId = none ↔ ∀ kv ∈ m, kv.1 ≠ gameId := by
  unfold getGameById
  rw [Option.map_eq_none', List.find?_eq_none]
  constructor
  · intro h kv hkv
    simpa using h kv hkv
  · intro h kv hkv
    simpa using h kv hkv

/-- C7: a `makeMove` call that fails — unknown game, game not `active`,
caller not the current player, coordinates out of `[0,2]`, or target cell
occupied — leaves the registry, and hence the stored game aggregate with
all its fields, exactly as it was before the call. -/
theorem makeMove_failure_is_atomic (now : Nat) (moveId : String) (m : GamesMap)
    (gameId playerId : String) (row col : Int) (e : String)
    (h : (makeMove now moveId m gameId playerId row col).1 = .error e) :
    (makeMove now moveId m gameId playerId row col).2 = m :=
  makeMove_error_map now moveId m gameId playerId row col e h

theorem makeMove_failure_is_atomic_witness :
    (makeMove 9 "mx" reg2 "g" "B" 0 0).1 = .error "Not your turn" ∧
    (makeMove 9 "mx" reg2 "g" "B" 0 0).2 = reg2 :=
  ⟨rfl, makeMove_failure_is_atomic 9 "mx" reg2 "g" "B" 0 0 "Not your turn" rfl⟩

/-- C3: deleting an `active` game fails with the invalid-state error and the
game remains retrievable; deletion succeeds exactly for stored games whose
status is not `active` (`waiting`, `completed` or `draw`), after which the
game is gone; an absent id fails not-found. (The status guard lives in
`GameService.deleteGame`, embedded as `serviceDeleteGame`; the model-level
`deleteGame` only checks existence.) -/
theorem deleteGame_protects_active (m : GamesMap) (gameId : String) :
    (getGameById m gameId = none →
      serviceDeleteGame m gameId = (.error "Game not found", m)) ∧
    (∀ g, getGameById m gameId = some g → g.status = GameStatus.active →
      serviceDeleteGame m gameId = (.error "Cannot delete an active game", m) ∧
      getGameById (serviceDeleteGame m gameId).2 gameId = some g) ∧
    (∀ g, getGameById m gameId = some g → g.status ≠ GameStatus.active →
      (serviceDeleteGame m gameId).1 = .ok () ∧
      getGameById (serviceDeleteGame m gameId).2 gameId = none) := by
  refine ⟨?_, ?_, ?_⟩
  · intro h
    simp only [serviceDeleteGame, h]
  · intro g hg ha
    have hres : serviceDeleteGame m gameId = (.error "Cannot delete an active game", m) := by
      simp only [serviceDeleteGame, hg, if_pos ha]
    exact ⟨hres, by rw [hres]; exact hg⟩
  · intro g hg ha
    have hres : serviceDeleteGame m gameId = (.ok (), mapDelete m gameId) := by
      simp only [serviceDeleteGame, deleteGame, hg, if_neg ha]
    exact ⟨by rw [hres], by rw [hres]; exact getGameById_mapDelete_self m gameId⟩

theorem deleteGame_protects_active_witness :
    (getGameById reg2 "g" = some gameReg2 ∧ gameReg2.status = GameStatus.active) ∧
    (serviceDeleteGame reg2 "g" = (.error "Cannot delete an active game", reg2) ∧
      getGameById (serviceDeleteGame reg2 "g").2 "g" = some gameReg2) ∧
    (getGameById reg1 "g" = some gameReg1 ∧ gameReg1.status ≠ GameStatus.active) ∧
    ((serviceDeleteGame reg1 "g").1 = .ok () ∧
      getGameById (serviceDeleteGame reg1 "g").2 "g" = none) :=
  ⟨⟨by decide, by decide⟩,
    (deleteGame_protects_active reg2 "g").2.1 gameReg2 (by decide) (by decide),
    ⟨by decide, by decide⟩,
    (deleteGame_protects_active reg1 "g").2.2 gameReg1 (by decide) (by decide)⟩

/-- A game artificially holding two players while still `waiting` — the only
shape on which the `Game is full` guard can fire, since the second join
switches the status to `active` and the status guard runs first. -/
def gameWaitingFull : Game :=
  { id := "w", name := "W", status := .waiting, board := createEmptyBoard,
    players := [pA, pB], currentPlayerId := none, winnerId := none,
    createdAt := 0, updatedAt := 0, moves := [] }

/-- C2 at its failing input: the game of `reg1` is `waiting` and player A is
already its sole participant, yet joining A again succeeds — the code stores
A twice and activates the game — instead of failing with the duplicate-join
conflict (`game.ts` line 49 carries the unimplemented
`TODO: Check if player is already in the game`). The full-game half of the
claim holds only on a `waiting` game with two stored players: the status
guard runs first, so joining a regular 2-player (`active`) game fails with
the not-accepting-players error instead. -/
theorem joinGame_duplicate_join_accepted :
    ((joinGame 2 reg1 "g" pA).1.toOption.map
        (fun g => (g.players.map Player.id, g.status, g.currentPlayerId)))
      = some (["A", "A"], GameStatus.active, some "A") ∧
    (joinGame 3 [("w", gameWaitingFull)] "w" ⟨"C", "Cara", "cara@example.com"⟩).1
      = .error "Game is full" ∧
    (joinGame 3 reg2 "g" ⟨"C", "Cara", "cara@example.com"⟩).1
      = .error "Game is not accepting new players" := by
  exact ⟨by decide, by decide, by decide⟩

/-- The 8 winning lines of the spec — 3 rows, 3 columns, 2 diagonals — as
lists of (row, column) coordinates. -/
def winningLines : List (List (Nat × Nat)) :=
  [[(0, 0), (0, 1), (0, 2)],
   [(1, 0), (1, 1), (1, 2)],
   [(2, 0), (2, 1), (2, 2)],
   [(0, 0), (1, 0), (2, 0)],
   [(0, 1), (1, 1), (2, 1)],
   [(0, 2), (1, 2), (2, 2)],
   [(0, 0), (1, 1), (2, 2)],
   [(0, 2), (1, 1), (2, 0)]]

/-- Spec-side winning predicate: the player occupies all three cells of at
least one of the 8 winning lines. -/
def occupiesWinningLine (b : Board) (playerId : String) : Prop :=
  ∃ line ∈ winningLines, ∀ rc ∈ line, cellAt b rc.1 rc.2 = some playerId

/-- C6: `checkWinCondition` reports a win exactly when the player occupies
all three cells of one of the 8 winning lines, and reports no win on every
board where the player has no three-in-a-row. -/
theorem checkWin_iff_winningLine (b : Board) (playerId : String) :
    (checkWinCondition b playerId).won = true ↔ occupiesWinningLine b playerId := by
  have hD : occupiesWinningLine b playerId ↔
      ((cellAt b 0 0 = some playerId ∧ cellAt b 0 1 = some playerId ∧
          cellAt b 0 2 = some playerId) ∨
       (cellAt b 1 0 = some playerId ∧ cellAt b 1 1 = some playerId ∧
          cellAt b 1 2 = some playerId) ∨
       (cellAt b 2 0 = some playerId ∧ cellAt b 2 1 = some playerId ∧
          cellAt b 2 2 = some playerId) ∨
       (cellAt b 0 0 = some playerId ∧ cellAt b 1 0 = some playerId ∧
          cellAt b 2 0 = some playerId) ∨
       (cellAt b 0 1 = some playerId ∧ cellAt b 1 1 = some playerId ∧
          cellAt b 2 1 = some playerId) ∨
       (cellAt b 0 2 = some playerId ∧ cellAt b 1 2 = some playerId ∧
          cellAt b 2 2 = some playerId) ∨
       (cellAt b 0 0 = some playerId ∧ cellAt b 1 1 = some playerId ∧
          cellAt b 2 2 = some playerId) ∨
       (cellAt b 0 2 = some playerId ∧ cellAt b 1 1 = some playerId ∧
          cellAt b 2 0 = some playerId)) := by
    unfold occupiesWinningLine winningLines
    simp only [List.mem_cons, List.not_mem_nil, or_false, exists_eq_or_imp,
      exists_eq_left, List.forall_mem_cons, List.forall_mem_singleton,
      false_and, exists_false, forall_eq_or_imp, forall_eq]
  rw [hD]
  unfold checkWinCondition
  split_ifs with h1 h2 h3 h4 h5 h6 h7 h8
  · exact iff_of_true rfl (Or.inl h1)
  · exact iff_of_true rfl (Or.inr (Or.inl h2))
  · exact iff_of_true rfl (Or.inr (Or.inr (Or.inl h3)))
  · exact iff_of_true rfl (Or.inr (Or.inr (Or.inr (Or.inl h4))))
  · exact iff_of_true rfl (Or.inr (Or.inr (Or.inr (Or.inr (Or.inl h5)))))
  · exact iff_of_true rfl (Or.inr (Or.inr (Or.inr (Or.inr (Or.inr (Or.inl h6))))))
  · exact iff_of_true rfl (Or.inr (Or.inr (Or.inr (Or.inr (Or.inr (Or.inr (Or.inl h7)))))))
  · exact iff_of_true rfl (Or.inr (Or.inr (Or.inr (Or.inr (Or.inr (Or.inr (Or.inr h8)))))))
  · refine iff_of_false (by simp) ?_
    rintro (h | h | h | h | h | h | h | h)
    exacts [h1 h, h2 h, h3 h, h4 h, h5 h, h6 h, h7 h, h8 h]

/-- The outcome of the `makeMove` mutation tail: the new board is the old
board with the target cell marked, and the resulting status is `completed`
exactly when the win check fires on the new board, `draw` exactly when the
win check fails and the draw check fires, and `active` (the turn-flip
branch) exactly when both fail. -/
lemma applyMove_outcomes (now : Nat) (moveId : String) (game : Game)
    (gameId playerId : String) (row col : Int)
    (ha : game.status = GameStatus.active) :
    ((applyMoveToGame now moveId game gameId playerId row col).1.board
        = setCell game.board row.toNat col.toNat (some playerId)) ∧
    ((applyMoveToGame now moveId game gameId playerId row col).1.status
        = GameStatus.completed ↔
      (checkWinCondition (setCell game.board row.toNat col.toNat (some playerId))
          playerId).won = true) ∧
    ((applyMoveToGame now moveId game gameId playerId row col).1.status
        = GameStatus.draw ↔
      ((checkWinCondition (setCell game.board row.toNat col.toNat (some playerId))
          playerId).won = false ∧
        isDraw (setCell game.board row.toNat col.toNat (some playerId)) = true)) ∧
    ((applyMoveToGame now moveId game gameId playerId row col).1.status
        = GameStatus.active ↔
      ((checkWinCondition (setCell game.board row.toNat col.toNat (some playerId))
          playerId).won = false ∧
        isDraw (setCell game.board row.toNat col.toNat (some playerId)) = false)) := by
  unfold applyMoveToGame
  simp only
  split_ifs with hw hd
  · refine ⟨rfl, ?_, ?_, ?_⟩ <;> simp [hw]
  · refine ⟨rfl, ?_, ?_, ?_⟩ <;> simp [hw, hd]
  · refine ⟨rfl, ?_, ?_, ?_⟩ <;> simp [ha, hw, hd]

/-- C5: a successful `makeMove` resolves to exactly one of three outcomes —
win (`completed`), draw (`draw`), or a plain turn flip (still `active`) —
characterized by the win/draw checks on the updated board, with the win
check taking precedence over the draw check; consequently a move that fills
the board is never a plain turn flip. -/
theorem makeMove_outcome_trichotomy (now : Nat) (moveId : String) (m : GamesMap)
    (gameId playerId : String) (row col : Int) (g' : Game) (mv : Move)
    (h : (makeMove now moveId m gameId playerId row col).1 = .ok (g', mv)) :
    (g'.status = GameStatus.completed ∨ g'.status = GameStatus.draw ∨
        g'.status = GameStatus.active) ∧
    (g'.status = GameStatus.completed ↔
        (checkWinCondition g'.board playerId).won = true) ∧
    (g'.status = GameStatus.draw ↔
        ((checkWinCondition g'.board playerId).won = false ∧ isDraw g'.board = true)) ∧
    (g'.status = GameStatus.active ↔
        ((checkWinCondition g'.board playerId).won = false ∧ isDraw g'.board = false)) ∧
    (isDraw g'.board = true → g'.status ≠ GameStatus.active) := by
  obtain ⟨game, hgame, ha, hcur, hbnd, hcell, hfind, hpair, hmap⟩ :=
    makeMove_ok now moveId m gameId playerId row col g' mv h
  have hg' : g' = (applyMoveToGame now moveId game gameId playerId row col).1 := by
    rw [← hpair]
  subst hg'
  obtain ⟨hb, hc, hd, hactv⟩ :=
    applyMove_outcomes now moveId game gameId playerId row col ha
  rw [hb]
  refine ⟨?_, hc, hd, hactv, ?_⟩
  · cases hwb : (checkWinCondition
        (setCell game.board row.toNat col.toNat (some playerId)) playerId).won
    · cases hdb : isDraw (setCell game.board row.toNat col.toNat (some playerId))
      · exact Or.inr (Or.inr (hactv.mpr ⟨hwb, hdb⟩))
      · exact Or.inr (Or.inl (hd.mpr ⟨hwb, hdb⟩))
    · exact Or.inl (hc.mpr hwb)
  · intro hdb hst
    exact absurd hdb (by simp [(hactv.mp hst).2])

/-- The game stored in `reg0`: freshly created. -/
def gameReg0 : Game :=
  { id := "g", name := "G1", status := .waiting, board := createEmptyBoard,
    players := [], currentPlayerId := none, winnerId := none,
    createdAt := 0, updatedAt := 0, moves := [] }

/-- A's first move record. -/
def moveM1 : Move :=
  { id := "m1", gameId := "g", playerId := "A", row := 0, col := 0, timestamp := 3 }

/-- The game stored in `reg3`: A has marked (0,0), B to move. -/
def gameReg3 : Game :=
  { id := "g", name := "G1", status := .active,
    board := [[some "A", none, none], [none, none, none], [none, none, none]],
    players := [pA, pB], currentPlayerId := some "B", winnerId := none,
    createdAt := 0, updatedAt := 3, moves := [moveM1] }

theorem makeMove_outcome_trichotomy_witness :
    (makeMove 3 "m1" reg2 "g" "A" 0 0).1 = .ok (gameReg3, moveM1) ∧
    (gameReg3.status = GameStatus.completed ∨ gameReg3.status = GameStatus.draw ∨
      gameReg3.status = GameStatus.active) :=
  ⟨by decide,
    (makeMove_outcome_trichotomy 3 "m1" reg2 "g" "A" 0 0 gameReg3 moveM1 (by decide)).1⟩

/-- C8: on a `waiting` game holding exactly one player, a successful join by
a distinct second player activates the game with the first-joined player
(`players[0]`) — never the newcomer — as current player; a first join on an
empty `waiting` game (satisfying the lifecycle invariant) leaves it
`waiting` with no current player. -/
theorem joinGame_second_join_activates (now : Nat) (m : GamesMap)
    (gameId : String) (p : Player) :
    (∀ g q, getGameById m gameId = some g → g.status = GameStatus.waiting →
      g.players = [q] → q.id ≠ p.id →
      (joinGame now m gameId p).1 =
        .ok { g with
                players := [q, p]
                status := .active
                currentPlayerId := some q.id
                updatedAt := now } ∧
      some q.id ≠ some p.id) ∧
    (∀ g, getGameById m gameId = some g → g.status = GameStatus.waiting →
      g.players = [] → lifecycleInv g →
      (joinGame now m gameId p).1 =
        .ok { g with players := [p], updatedAt := now } ∧
      ({ g with players := [p], updatedAt := now } : Game).status
        = GameStatus.waiting ∧
      ({ g with players := [p], updatedAt := now } : Game).currentPlayerId
        = none) := by
  constructor
  · intro g q hget hw hpl hne
    have hjoined : joinedGame now g p =
        { g with
            players := [q, p]
            status := .active
            currentPlayerId := some q.id
            updatedAt := now } := by
      simp [joinedGame, hpl]
    refine ⟨?_, by simpa using hne⟩
    unfold joinGame
    simp only [hget]
    rw [if_neg (by simp [hw]), if_neg (by simp [hpl])]
    rw [hjoined]
  · intro g hget hw hpl hinv
    have hcur : g.currentPlayerId = none := by
      by_contra hne
      exact (hinv.1.mp hne) hw
    have hjoined : joinedGame now g p = { g with players := [p], updatedAt := now } := by
      simp [joinedGame, hpl]
    refine ⟨?_, by simp [hw], by simp [hcur]⟩
    unfold joinGame
    simp only [hget]
    rw [if_neg (by simp [hw]), if_neg (by simp [hpl])]
    rw [hjoined]

theorem joinGame_second_join_activates_witness :
    ((joinGame 2 reg1 "g" pB).1 =
        .ok { gameReg1 with
                players := [pA, pB]
                status := .active
                currentPlayerId := some pA.id
                updatedAt := 2 } ∧
      some pA.id ≠ some pB.id) ∧
    ((joinGame 1 reg0 "g" pA).1 =
        .ok { gameReg0 with players := [pA], updatedAt := 1 } ∧
      ({ gameReg0 with players := [pA], updatedAt := 1 } : Game).status
        = GameStatus.waiting ∧
      ({ gameReg0 with players := [pA], updatedAt := 1 } : Game).currentPlayerId
        = none) :=
  ⟨(joinGame_second_join_activates 2 reg1 "g" pB).1 gameReg1 pA
      (by decide) (by decide) (by decide) (by decide),
    (joinGame_second_join_activates 1 reg0 "g" pA).2 gameReg0
      (by decide) (by decide) (by decide) ⟨by decide, by decide⟩⟩

/-! Fixtures for C9: the same move (player A marking (0,0) at time 9 with
generated id "mid") played in two registries whose stored games have
different prior move counts. In `regB3` the join order was B then A and B
has already played the centre. -/

def regB1 : GamesMap := (joinGame 1 reg0 "g" pB).2

def regB2 : GamesMap := (joinGame 2 regB1 "g" pA).2

def regB3 : GamesMap := (makeMove 3 "x1" regB2 "g" "B" 1 1).2

/-- C9 counterexample: two successful `makeMove` calls whose games hold 0
and 1 prior moves respectively produce *identical* `Move` records, so the
record cannot carry a sequence number equal to the prior move count — the
`Move` shape of `types.ts` has only id, gameId, playerId, row, col and
timestamp. -/
theorem move_record_has_no_sequence_number :
    (makeMove 9 "mid" reg2 "g" "A" 0 0).1.toOption.map (fun gm => gm.2) =
      (makeMove 9 "mid" regB3 "g" "A" 0 0).1.toOption.map (fun gm => gm.2) ∧
    ((makeMove 9 "mid" reg2 "g" "A" 0 0).1.toOption.map (fun gm => gm.2)).isSome
      = true ∧
    (getGameById reg2 "g").map (fun g => g.moves.length) = some 0 ∧
    (getGameById regB3 "g").map (fun g => g.moves.length) = some 1 := by
  decide

/-- C9 amended: the `Move` record of a successful `makeMove` carries the
game identifier, player identifier, row, column, timestamp and generated id
— no sequence-number field — and is appended to the game's move log, so its
position in the log equals the number of moves stored before the call. -/
theorem move_record_contents (now : Nat) (moveId : String) (m : GamesMap)
    (gameId playerId : String) (row col : Int) (g' game : Game) (mv : Move)
    (h : (makeMove now moveId m gameId playerId row col).1 = .ok (g', mv))
    (hgame : getGameById m gameId = some game) :
    mv = { id := moveId, gameId := gameId, playerId := playerId,
           row := row, col := col, timestamp := now } ∧
    g'.moves = game.moves ++ [mv] := by
  obtain ⟨game0, hgame0, ha, hcur, hbnd, hcell, hfind, hpair, hmap⟩ :=
    makeMove_ok now moveId m gameId playerId row col g' mv h
  have hg : game0 = game := by
    rw [hgame0] at hgame
    exact Option.some.inj hgame
  subst hg
  have hmv : mv = (applyMoveToGame now moveId game0 gameId playerId row col).2 := by
    rw [← hpair]
  have hg' : g' = (applyMoveToGame now moveId game0 gameId playerId row col).1 := by
    rw [← hpair]
  subst hmv
  subst hg'
  constructor
  · rfl
  · unfold applyMoveToGame
    simp only
    split_ifs <;> rfl

theorem move_record_contents_witness :
    moveM1 = { id := "m1", gameId := "g", playerId := "A",
               row := 0, col := 0, timestamp := 3 } ∧
    gameReg3.moves = gameReg2.moves ++ [moveM1] :=
  move_record_contents 3 "m1" reg2 "g" "A" 0 0 gameReg3 gameReg2 moveM1
    (by decide) (by decide)

/-- C1 counterexample: `reg7` is reachable (create, two joins, five moves)
and its game has status `completed` with `currentPlayerId` still `some "A"`
— the winning move did not null the current player, so `currentPlayerId`
is non-null while the status is not `active`. -/
theorem completed_game_keeps_currentPlayer :
    Reachable reg7 ∧
    (getGameById reg7 "g").map (fun g => (g.status, g.currentPlayerId, g.winnerId))
      = some (GameStatus.completed, some "A", some "A") :=
  ⟨reachable_reg7, by decide⟩

/-- C1 amended: in every reachable registry state, `currentPlayerId` is
non-null iff the game has left `waiting` (i.e. both players have joined) —
not iff the status is `active` — and a successful game-ending `makeMove`
leaves `currentPlayerId` equal to the mover's id rather than nulling it. -/
theorem currentPlayer_nonnull_iff_left_waiting :
    (∀ m, Reachable m → ∀ k g, getGameById m k = some g →
      (g.currentPlayerId ≠ none ↔ g.status ≠ GameStatus.waiting)) ∧
    (∀ (now : Nat) (moveId : String) (m : GamesMap) (gameId playerId : String)
        (row col : Int) (g' : Game) (mv : Move),
      (makeMove now moveId m gameId playerId row col).1 = .ok (g', mv) →
      (g'.status = GameStatus.completed ∨ g'.status = GameStatus.draw) →
      g'.currentPlayerId = some playerId) := by
  constructor
  · intro m hm k g hget
    exact (reachable_invAll m hm k g hget).1
  · intro now moveId m gameId playerId row col g' mv h hend
    obtain ⟨game, hgame, ha, hcur, hbnd, hcell, hfind, hpair, hmap⟩ :=
      makeMove_ok now moveId m gameId playerId row col g' mv h
    have hg' : g' = (applyMoveToGame now moveId game gameId playerId row col).1 := by
      rw [← hpair]
    subst hg'
    unfold applyMoveToGame at hend ⊢
    simp only at hend ⊢
    split_ifs at hend ⊢ with hw hd
    · exact hcur
    · exact hcur
    · exfalso
      rcases hend with h9 | h9 <;> simp [ha] at h9

theorem currentPlayer_nonnull_iff_left_waiting_witness :
    getGameById reg2 "g" = some gameReg2 ∧
    (gameReg2.currentPlayerId ≠ none ↔ gameReg2.status ≠ GameStatus.waiting) :=
  ⟨by decide,
    (currentPlayer_nonnull_iff_left_waiting).1 reg2 reachable_reg2 "g" gameReg2 (by decide)⟩

end TicTacToe
